import Mathlib

/-!
Verification of the PDF page-edit session core of `app.py`.

The program is a small web application that stores, per session `fid`, two
artifacts in an upload directory: the binary PDF (`{fid}.pdf`) and a JSON
metadata record (`{fid}.json`) holding the original filename and the ordered
list of original page numbers.  Three POST routes mutate a session:
`rotate` (in-place incremental save), `delete` and `move` (full rewrite to a
temporary file followed by `os.replace`, then a separate metadata write).

The embedding below models the document as a list of pages, each carrying its
provenance (`origIndex`, the 1-based page number at upload time, which the
ledger tracks) and its current rotation angle; the store models the three
on-disk artifacts (`pdf`, the `.tmp` file, and the JSON metadata).  Route
handlers are translated line by line from `app.py`; Python exceptions that the
handlers do not catch (a failed `fitz.open` on a missing file, a `ValueError`
from `int()`) are modelled with `Except`.
-/

namespace PdfMinEdit

/-- A page of the in-memory PDF document: its original 1-based page number at
upload time (the provenance the ledger records) and its current rotation
angle in degrees. -/
structure PDFPage where
  origIndex : Nat
  rotation : Nat
deriving DecidableEq, Repr

/-- The JSON metadata artifact `{fid}.json`: original filename without
extension, and the ordered list of original page numbers (the ledger). -/
structure SessionMeta where
  filename : String
  pages : List Nat
deriving DecidableEq, Repr

/-- The on-disk state of one session: the binary PDF artifact `{fid}.pdf`,
the temporary artifact `{fid}.pdf.tmp` used during full rewrites, and the
metadata artifact `{fid}.json`.  `none` means the file does not exist. -/
structure Store where
  pdf : Option (List PDFPage)
  tmp : Option (List PDFPage)
  meta : Option SessionMeta
deriving DecidableEq, Repr

/-- The HTTP response a route produces. `ok` is a 200 page, `redirect` the
302 back to the edit view, `notFound` the explicit 404 answer, and
`serverError` the 500 Flask produces from an uncaught exception. -/
inductive Response where
  | ok
  | redirect
  | notFound
  | serverError
deriving DecidableEq, Repr

/-- Python exceptions the handlers can raise and do not catch:
`fileNotFound` from `fitz.open` on a missing path, `valueError` from
`int()` on a malformed string. -/
inductive PyErr where
  | fileNotFound
  | valueError
deriving DecidableEq, Repr

/-- One save performed against the store, as issued by the handlers:
`incrementalSave` is `doc.save(path, incremental=True, ...)` with the flag
recording whether the existing encryption envelope is kept
(`encryption=fitz.PDF_ENCRYPT_KEEP`); `tmpWrite` is `doc.save(tmp, ...)`
with the `deflate` flag; `replaceTmp` is `os.replace(tmp, path)`;
`metaWrite` is `_save_meta`. -/
inductive SaveEvent where
  | incrementalSave (encryptKeep : Bool)
  | tmpWrite (deflate : Bool)
  | replaceTmp
  | metaWrite
deriving DecidableEq, Repr

/-- Everything a successful route invocation yields: the resulting store,
the saves it performed in order, and the HTTP response. -/
structure RouteOut where
  store : Store
  saves : List SaveEvent
  resp : Response
deriving DecidableEq, Repr

/-- Translation of `_load_meta`: return the parsed JSON when the metadata
file exists, otherwise the default of filename `"unknown.pdf"` and pages
`list(range(1, n + 1))`. -/
def load_meta (metaFile : Option SessionMeta) (n : Nat) : SessionMeta :=
  match metaFile with
  | some m => m
  | none => { filename := "unknown.pdf", pages := List.range' 1 n }

/-- Translation of the body of `rotate`'s guarded branch:
`page.set_rotation((page.rotation + 90) % 360)` on page `i`; out of range
(guarded by the caller, total here) leaves the document unchanged. -/
def rotDoc (doc : List PDFPage) (i : Nat) : List PDFPage :=
  match doc[i]? with
  | some p => doc.set i { p with rotation := (p.rotation + 90) % 360 }
  | none => doc

/-- The `order.insert(to_idx, order.pop(from_idx))` idiom of `move`, and the
identical `meta["pages"].insert(to_idx, meta["pages"].pop(from_idx))`:
remove the element at `f`, then insert it at position `t` of the shifted
list.  Out-of-range `f` (never produced by the guarded caller) leaves the
list unchanged. -/
def popInsert {α : Type} (l : List α) (f t : Nat) : List α :=
  match l[f]? with
  | some x => (l.eraseIdx f).insertIdx t x
  | none => l

/-- Model of PyMuPDF's `doc.select(order)`: the new document shows, in order,
the pages named by `order` (the handlers always pass a permutation of
`range(n)`, so every index is in range). -/
def docSelect (doc : List PDFPage) (order : List Nat) : List PDFPage :=
  order.map (fun j => doc.getD j ⟨0, 0⟩)

/-- The save sequence `delete` and `move` issue for a structural change:
write the rewritten document to `.tmp` with `deflate=True`, atomically
rename it over the PDF artifact, then write the metadata JSON. -/
def fullRewriteSaves : List SaveEvent :=
  [.tmpWrite true, .replaceTmp, .metaWrite]

/-- Translation of the `rotate` route: `fitz.open` raises when the PDF
artifact is missing; in range, rotate the page by 90 degrees and save
incrementally keeping encryption; out of range, do nothing.  The metadata
artifact is never touched. -/
def rotate (st : Store) (page_idx : Nat) : Except PyErr RouteOut :=
  match st.pdf with
  | none => .error .fileNotFound
  | some doc =>
    if page_idx < doc.length then
      .ok ⟨{ st with pdf := some (rotDoc doc page_idx) },
           [.incrementalSave true], .redirect⟩
    else
      .ok ⟨st, [], .redirect⟩

/-- Translation of the `delete` route: `fitz.open` raises when the PDF
artifact is missing; when `0 <= page_idx < n and n > 1`, delete the page,
save to `.tmp`, `os.replace` it over the PDF (which removes the `.tmp`),
then pop the same index from the loaded metadata's page list and save the
metadata; otherwise do nothing. -/
def delete (st : Store) (page_idx : Nat) : Except PyErr RouteOut :=
  match st.pdf with
  | none => .error .fileNotFound
  | some doc =>
    let n := doc.length
    if page_idx < n ∧ 1 < n then
      let m := load_meta st.meta n
      .ok ⟨⟨some (doc.eraseIdx page_idx), none,
            some { m with pages := m.pages.eraseIdx page_idx }⟩,
           fullRewriteSaves, .redirect⟩
    else
      .ok ⟨st, [], .redirect⟩

/-- Translation of the guarded body of the `move` route, after the `to`
form value has been parsed to an integer: when
`0 <= from_idx < n and 0 <= to_idx < n and from_idx != to_idx`, build
`order = list(range(n))`, pop `from_idx` and insert at `to_idx`, apply
`doc.select(order)`, save via `.tmp` plus `os.replace`, then permute the
metadata's page list with the identical pop-then-insert and save it;
otherwise do nothing. -/
def moveCore (st : Store) (from_idx : Nat) (to_idx : Int) : Except PyErr RouteOut :=
  match st.pdf with
  | none => .error .fileNotFound
  | some doc =>
    let n := doc.length
    if from_idx < n ∧ 0 ≤ to_idx ∧ to_idx < (n : Int) ∧ (from_idx : Int) ≠ to_idx then
      let t := to_idx.toNat
      let order := popInsert (List.range n) from_idx t
      let m := load_meta st.meta n
      .ok ⟨⟨some (docSelect doc order), none,
            some { m with pages := popInsert m.pages from_idx t }⟩,
           fullRewriteSaves, .redirect⟩
    else
      .ok ⟨st, [], .redirect⟩

/-- Numeric value of a valid Python integer-literal body, skipping the
underscore digit separators. -/
def pyDigitsVal (cs : List Char) : Nat :=
  cs.foldl (fun a c => if c == '_' then a else a * 10 + (c.toNat - 48)) 0

/-- Validity of the digit body of a Python integer literal: nonempty digits,
with single underscores allowed only between digits. -/
def pyBody : List Char → Bool
  | [] => false
  | [c] => c.isDigit
  | c :: d :: rest =>
    c.isDigit && (if d == '_' then pyBody rest else pyBody (d :: rest))

/-- Strip leading and trailing whitespace, as Python's `int()` does. -/
def pyStrip (cs : List Char) : List Char :=
  ((cs.dropWhile Char.isWhitespace).reverse.dropWhile Char.isWhitespace).reverse

/-- Model of Python's built-in `int()` on a string: optional surrounding
whitespace, optional sign, then a digit body; anything else raises
`ValueError`. -/
def pyInt (s : String) : Except PyErr Int :=
  match pyStrip s.data with
  | '+' :: rest => if pyBody rest then .ok (pyDigitsVal rest : Int) else .error .valueError
  | '-' :: rest => if pyBody rest then .ok (-(pyDigitsVal rest : Int)) else .error .valueError
  | rest => if pyBody rest then .ok (pyDigitsVal rest : Int) else .error .valueError

/-- Translation of the `move` route entry:
`to_idx = int(request.form.get("to", from_idx))` — when the `to` form field
is absent the default is `from_idx` itself, and `int` of an `int` is the
identity; when present, `int` parses the string and raises `ValueError` on
malformed input, before the document is even opened. -/
def move (st : Store) (from_idx : Nat) (toParam : Option String) : Except PyErr RouteOut :=
  match toParam with
  | none => moveCore st from_idx (from_idx : Int)
  | some s =>
    match pyInt s with
    | .ok t => moveCore st from_idx t
    | .error e => .error e

/-- Translation of the `edit` route's session loading: it is the only
mutating-path route that checks existence, answering 404
(`"ファイルが見つかりません", 404`) when the PDF artifact is missing, and
rendering the page otherwise. -/
def edit (st : Store) : Response :=
  match st.pdf with
  | none => .notFound
  | some _ => .ok

/-- The response the caller of `rotate` observes: Flask turns an uncaught
exception into a 500 server error. -/
def runRotate (st : Store) (page_idx : Nat) : Response :=
  match rotate st page_idx with
  | .ok out => out.resp
  | .error _ => .serverError

/-- The response the caller of `delete` observes. -/
def runDelete (st : Store) (page_idx : Nat) : Response :=
  match delete st page_idx with
  | .ok out => out.resp
  | .error _ => .serverError

/-- The response the caller of `move` observes. -/
def runMove (st : Store) (from_idx : Nat) (toParam : Option String) : Response :=
  match move st from_idx toParam with
  | .ok out => out.resp
  | .error _ => .serverError

/-- The sequence of externally visible store states during a successful
`delete` with a valid index: initial; after `doc.save(tmp, deflate=True)`;
after `os.replace(tmp, path)` (PDF artifact replaced, metadata still old);
after `_save_meta` (both artifacts new). -/
def deleteSnapshots (st : Store) (page_idx : Nat) : List Store :=
  match st.pdf with
  | none => [st]
  | some doc =>
    let n := doc.length
    if page_idx < n ∧ 1 < n then
      let newDoc := doc.eraseIdx page_idx
      let m := load_meta st.meta n
      [ st,
        { st with tmp := some newDoc },
        ⟨some newDoc, none, st.meta⟩,
        ⟨some newDoc, none, some { m with pages := m.pages.eraseIdx page_idx }⟩ ]
    else [st]

/-- The sequence of externally visible store states during a successful
`move` with valid indices, mirroring `deleteSnapshots`. -/
def moveSnapshots (st : Store) (from_idx : Nat) (to_idx : Int) : List Store :=
  match st.pdf with
  | none => [st]
  | some doc =>
    let n := doc.length
    if from_idx < n ∧ 0 ≤ to_idx ∧ to_idx < (n : Int) ∧ (from_idx : Int) ≠ to_idx then
      let t := to_idx.toNat
      let newDoc := docSelect doc (popInsert (List.range n) from_idx t)
      let m := load_meta st.meta n
      [ st,
        { st with tmp := some newDoc },
        ⟨some newDoc, none, st.meta⟩,
        ⟨some newDoc, none, some { m with pages := popInsert m.pages from_idx t }⟩ ]
    else [st]

/-- The document the `upload` route stores: page `k` of the upload keeps its
own rotation from the file and is assigned original number `k` (1-based),
matching `meta["pages"] = list(range(1, len(doc) + 1))`. -/
def uploadDoc (k : Nat) : List Nat → List PDFPage
  | [] => []
  | r :: rs => ⟨k, r⟩ :: uploadDoc (k + 1) rs

/-- Translation of the `upload` route's effect on the store: save the PDF
bytes, and save metadata with the original filename and pages `1..N`.
`rots` are the rotation angles the uploaded file's pages already carry. -/
def uploadStore (name : String) (rots : List Nat) : Store :=
  ⟨some (uploadDoc 1 rots), none, some ⟨name, List.range' 1 rots.length⟩⟩

/-- Rotation values PyMuPDF exposes: the normalized multiples of 90 in
`[0, 360)`. -/
def validRot (r : Nat) : Prop :=
  r = 0 ∨ r = 90 ∨ r = 180 ∨ r = 270

instance (r : Nat) : Decidable (validRot r) := by
  unfold validRot; infer_instance

/-- Session states reachable from an upload of an `N`-page PDF (whose pages
carry normalized rotations, as PyMuPDF guarantees) by any sequence of the
three edit routes. -/
inductive Reach (N : Nat) : Store → Prop where
  | upload (name : String) (rots : List Nat) (hlen : rots.length = N)
      (hrot : ∀ r ∈ rots, validRot r) : Reach N (uploadStore name rots)
  | rotate_step (st : Store) (i : Nat) (out : RouteOut) :
      Reach N st → rotate st i = .ok out → Reach N out.store
  | delete_step (st : Store) (i : Nat) (out : RouteOut) :
      Reach N st → delete st i = .ok out → Reach N out.store
  | move_step (st : Store) (f : Nat) (t : Int) (out : RouteOut) :
      Reach N st → moveCore st f t = .ok out → Reach N out.store

/-- The pages of the session's document, empty when the artifact is
missing. -/
def docOf (st : Store) : List PDFPage :=
  st.pdf.getD []

/-- The session's ledger of original page numbers, empty when the metadata
artifact is missing. -/
def ledgerOf (st : Store) : List Nat :=
  (st.meta.map SessionMeta.pages).getD []

/-- A concrete three-page document used to instantiate the theorems. -/
def doc3 : List PDFPage :=
  [⟨1, 0⟩, ⟨2, 0⟩, ⟨3, 0⟩]

/-- The metadata the upload route would store for `doc3`. -/
def meta3 : SessionMeta :=
  ⟨"f", [1, 2, 3]⟩

/-- A concrete session store holding `doc3` and `meta3`. -/
def st3 : Store :=
  ⟨some doc3, none, some meta3⟩

/-- A store for a session identifier that was never created (or already
destroyed): none of the artifacts exist. -/
def stEmpty : Store :=
  ⟨none, none, none⟩

/-- A store whose PDF artifact exists but whose metadata artifact is
missing. -/
def stNoMeta : Store :=
  ⟨some doc3, none, none⟩

instance {ε α : Type} [DecidableEq ε] [DecidableEq α] : DecidableEq (Except ε α) :=
  fun a b =>
    match a, b with
    | .ok x, .ok y =>
      if h : x = y then isTrue (congrArg Except.ok h)
      else isFalse (fun he => h (Except.ok.inj he))
    | .ok _, .error _ => isFalse (fun he => Except.noConfusion he)
    | .error _, .ok _ => isFalse (fun he => Except.noConfusion he)
    | .error d, .error e =>
      if h : d = e then isTrue (congrArg Except.error h)
      else isFalse (fun he => h (Except.error.inj he))

theorem map_eraseIdx_comm {α β : Type} (f : α → β) :
    ∀ (l : List α) (i : Nat), (l.eraseIdx i).map f = (l.map f).eraseIdx i
  | [], _ => rfl
  | _ :: _, 0 => rfl
  | a :: l, i + 1 => by
    simp only [List.eraseIdx_cons_succ, List.map_cons, map_eraseIdx_comm f l i]

theorem map_insertIdx_comm {α β : Type} (f : α → β) :
    ∀ (t : Nat) (l : List α) (x : α),
      (l.insertIdx t x).map f = (l.map f).insertIdx t (f x)
  | 0, _, _ => rfl
  | _ + 1, [], _ => rfl
  | t + 1, a :: l, x => by
    simp only [List.insertIdx_succ_cons, List.map_cons, map_insertIdx_comm f t l x]

theorem map_popInsert {α β : Type} (f : α → β) (l : List α) (i t : Nat) :
    (popInsert l i t).map f = popInsert (l.map f) i t := by
  unfold popInsert
  cases h : l[i]? with
  | none => simp [h]
  | some x => simp [h, map_eraseIdx_comm, map_insertIdx_comm]

theorem popInsert_of_lt {α : Type} (l : List α) (i t : Nat) (h : i < l.length) :
    popInsert l i t = (l.eraseIdx i).insertIdx t l[i] := by
  unfold popInsert
  rw [List.getElem?_eq_getElem h]

theorem insertIdx_cons_perm {α : Type} (x : α) :
    ∀ (t : Nat) (l : List α), t ≤ l.length → List.Perm (l.insertIdx t x) (x :: l)
  | 0, l, _ => List.Perm.refl _
  | _ + 1, [], h => absurd h (by simp)
  | t + 1, a :: l, h => by
    simp only [List.insertIdx_succ_cons]
    exact ((insertIdx_cons_perm x t l (by simpa using h)).cons a).trans
      (List.Perm.swap x a l)

theorem getElem_cons_eraseIdx_perm {α : Type} (l : List α) (i : Nat)
    (h : i < l.length) : List.Perm l (l[i] :: l.eraseIdx i) := by
  have h1 : l = l.take i ++ l[i] :: l.drop (i + 1) := by
    rw [← List.drop_eq_getElem_cons h, List.take_append_drop]
  rw [List.eraseIdx_eq_take_drop_succ]
  nth_rewrite 1 [h1]
  exact List.perm_middle

theorem popInsert_perm {α : Type} (l : List α) (i t : Nat)
    (hi : i < l.length) (ht : t < l.length) : List.Perm (popInsert l i t) l := by
  rw [popInsert_of_lt l i t hi]
  have hle : t ≤ (l.eraseIdx i).length := by
    rw [List.length_eraseIdx_of_lt hi]; omega
  exact (insertIdx_cons_perm _ t _ hle).trans (getElem_cons_eraseIdx_perm l i hi).symm

theorem length_popInsert {α : Type} (l : List α) (i t : Nat)
    (hi : i < l.length) (ht : t < l.length) : (popInsert l i t).length = l.length :=
  (popInsert_perm l i t hi ht).length_eq

theorem insertIdx_getElem_eraseIdx {α : Type} :
    ∀ (l : List α) (i : Nat) (h : i < l.length),
      (l.eraseIdx i).insertIdx i l[i] = l
  | _ :: _, 0, _ => rfl
  | a :: l, i + 1, h => by
    simp only [List.eraseIdx_cons_succ, List.insertIdx_succ_cons,
      List.getElem_cons_succ]
    exact congrArg (a :: ·) (insertIdx_getElem_eraseIdx l i (by simpa using h))

theorem popInsert_popInsert {α : Type} (l : List α) (i t : Nat)
    (hi : i < l.length) (ht : t < l.length) :
    popInsert (popInsert l i t) t i = l := by
  rw [popInsert_of_lt l i t hi]
  have hel : (l.eraseIdx i).length = l.length - 1 := List.length_eraseIdx_of_lt hi
  have hle : t ≤ (l.eraseIdx i).length := by omega
  have hLlen : ((l.eraseIdx i).insertIdx t l[i]).length = l.length := by
    rw [List.length_insertIdx t _ hle]; omega
  have htL : t < ((l.eraseIdx i).insertIdx t l[i]).length := by omega
  rw [popInsert_of_lt _ t i htL]
  have hget : ((l.eraseIdx i).insertIdx t l[i])[t] = l[i] :=
    List.getElem_insertIdx_self (l.eraseIdx i) l[i] t hle
  rw [hget, List.eraseIdx_insertIdx]
  exact insertIdx_getElem_eraseIdx l i hi

theorem map_getD_range {α : Type} (l : List α) (d : α) :
    (List.range l.length).map (fun j => l.getD j d) = l := by
  apply List.ext_getElem
  · simp
  · intro n h1 h2
    simp only [List.getElem_map, List.getElem_range]
    exact List.getD_eq_getElem l d h2

theorem docSelect_popInsert_range (doc : List PDFPage) (i t : Nat) :
    docSelect doc (popInsert (List.range doc.length) i t) = popInsert doc i t := by
  unfold docSelect
  rw [map_popInsert, map_getD_range]

theorem set_getElem_own {α : Type} :
    ∀ (l : List α) (i : Nat) (h : i < l.length), l.set i l[i] = l
  | _ :: _, 0, _ => rfl
  | a :: l, i + 1, h => by
    simp only [List.set_cons_succ, List.getElem_cons_succ]
    exact congrArg (a :: ·) (set_getElem_own l i (by simpa using h))

theorem length_rotDoc (doc : List PDFPage) (i : Nat) :
    (rotDoc doc i).length = doc.length := by
  unfold rotDoc
  cases h : doc[i]? <;> simp

theorem rotDoc_map_orig (doc : List PDFPage) (i : Nat) :
    (rotDoc doc i).map PDFPage.origIndex = doc.map PDFPage.origIndex := by
  unfold rotDoc
  cases h : doc[i]? with
  | none => rfl
  | some p =>
    obtain ⟨hi, hp⟩ := List.getElem?_eq_some_iff.mp h
    rw [List.map_set]
    have him : i < (doc.map PDFPage.origIndex).length := by simpa using hi
    have hv : PDFPage.origIndex p = (doc.map PDFPage.origIndex)[i] := by
      simp [← hp]
    rw [hv, set_getElem_own _ i him]

theorem validRot_rot90 (r : Nat) (h : validRot r) : validRot ((r + 90) % 360) := by
  rcases h with h | h | h | h <;> subst h <;> decide

theorem validRot_rotDoc (doc : List PDFPage) (i : Nat)
    (h : ∀ p ∈ doc, validRot p.rotation) :
    ∀ p ∈ rotDoc doc i, validRot p.rotation := by
  unfold rotDoc
  cases hq : doc[i]? with
  | none => exact h
  | some q =>
    intro p hp
    rcases List.mem_or_eq_of_mem_set hp with hp | hp
    · exact h p hp
    · subst hp
      exact validRot_rot90 _ (h q (List.getElem?_mem hq))

theorem rotDoc_set (doc : List PDFPage) (i : Nat) (p : PDFPage)
    (hp : doc[i]? = some p) :
    rotDoc doc i = doc.set i ⟨p.origIndex, (p.rotation + 90) % 360⟩ := by
  unfold rotDoc
  rw [hp]

theorem rotDoc_four (doc : List PDFPage) (i : Nat) (p : PDFPage)
    (hp : doc[i]? = some p) (hlt : p.rotation < 360) :
    rotDoc (rotDoc (rotDoc (rotDoc doc i) i) i) i = doc := by
  obtain ⟨hi, hpi⟩ := List.getElem?_eq_some_iff.mp hp
  have h1 : rotDoc doc i = doc.set i ⟨p.origIndex, (p.rotation + 90) % 360⟩ :=
    rotDoc_set doc i p hp
  have e1 : (doc.set i (⟨p.origIndex, (p.rotation + 90) % 360⟩ : PDFPage))[i]? =
      some ⟨p.origIndex, (p.rotation + 90) % 360⟩ :=
    List.getElem?_set_self (by simpa using hi)
  have h2 : rotDoc (rotDoc doc i) i =
      doc.set i ⟨p.origIndex, ((p.rotation + 90) % 360 + 90) % 360⟩ := by
    rw [h1, rotDoc_set _ i _ e1, List.set_set]
  have e2 : (doc.set i
      (⟨p.origIndex, ((p.rotation + 90) % 360 + 90) % 360⟩ : PDFPage))[i]? =
      some ⟨p.origIndex, ((p.rotation + 90) % 360 + 90) % 360⟩ :=
    List.getElem?_set_self (by simpa using hi)
  have h3 : rotDoc (rotDoc (rotDoc doc i) i) i =
      doc.set i ⟨p.origIndex, (((p.rotation + 90) % 360 + 90) % 360 + 90) % 360⟩ := by
    rw [h2, rotDoc_set _ i _ e2, List.set_set]
  have e3 : (doc.set i
      (⟨p.origIndex, (((p.rotation + 90) % 360 + 90) % 360 + 90) % 360⟩ : PDFPage))[i]? =
      some ⟨p.origIndex, (((p.rotation + 90) % 360 + 90) % 360 + 90) % 360⟩ :=
    List.getElem?_set_self (by simpa using hi)
  have h4 : rotDoc (rotDoc (rotDoc (rotDoc doc i) i) i) i =
      doc.set i
        ⟨p.origIndex, ((((p.rotation + 90) % 360 + 90) % 360 + 90) % 360 + 90) % 360⟩ := by
    rw [h3, rotDoc_set _ i _ e3, List.set_set]
  have hr : ((((p.rotation + 90) % 360 + 90) % 360 + 90) % 360 + 90) % 360 =
      p.rotation := by omega
  rw [h4, hr]
  have hsp : doc.set i p = doc := by
    rw [← hpi]
    exact set_getElem_own doc i hi
  exact hsp

theorem uploadDoc_map_orig :
    ∀ (k : Nat) (rots : List Nat),
      (uploadDoc k rots).map PDFPage.origIndex = List.range' k rots.length
  | _, [] => rfl
  | k, r :: rs => by
    simp only [uploadDoc, List.map_cons, List.length_cons, List.range'_succ]
    exact congrArg (k :: ·) (uploadDoc_map_orig (k + 1) rs)

theorem uploadDoc_length : ∀ (k : Nat) (rots : List Nat),
    (uploadDoc k rots).length = rots.length
  | _, [] => rfl
  | k, _ :: rs => congrArg Nat.succ (uploadDoc_length (k + 1) rs)

theorem uploadDoc_rot_mem :
    ∀ (k : Nat) (rots : List Nat) (p : PDFPage),
      p ∈ uploadDoc k rots → p.rotation ∈ rots
  | _, [], p, h => absurd h (by simp [uploadDoc])
  | k, r :: rs, p, h => by
    simp only [uploadDoc, List.mem_cons] at h
    rcases h with h | h
    · subst h; simp
    · exact List.mem_cons_of_mem _ (uploadDoc_rot_mem (k + 1) rs p h)

/-- C1: for every reachable session state (an upload followed by any
sequence of rotate, delete and move operations), after every operation both
artifacts exist, the ledger's length equals the document's page count, the
ledger mirrors the document's page order (entry `i` is the provenance of
page `i`), the ledger's entries are distinct values from the upload's
`1..N` range, and every page's rotation is one of 0, 90, 180, 270. -/
theorem claim_C1 (N : Nat) (st : Store) (h : Reach N st) :
    st.pdf ≠ none ∧ st.meta ≠ none ∧
    (ledgerOf st).length = (docOf st).length ∧
    ledgerOf st = (docOf st).map PDFPage.origIndex ∧
    (ledgerOf st).Nodup ∧
    (∀ x ∈ ledgerOf st, 1 ≤ x ∧ x ≤ N) ∧
    (∀ p ∈ docOf st, validRot p.rotation) := by
  induction h with
  | upload name rots hlen hrot =>
    subst hlen
    have hdof : docOf (uploadStore name rots) = uploadDoc 1 rots := rfl
    have hlof : ledgerOf (uploadStore name rots) = List.range' 1 rots.length := rfl
    have hmir : ledgerOf (uploadStore name rots) =
        (docOf (uploadStore name rots)).map PDFPage.origIndex := by
      rw [hdof, hlof, uploadDoc_map_orig]
    refine ⟨Option.some_ne_none _, Option.some_ne_none _, ?_, hmir, ?_, ?_, ?_⟩
    · rw [hmir, List.length_map]
    · rw [hlof]; exact List.nodup_range' 1 rots.length
    · intro x hx
      rw [hlof] at hx
      have := List.mem_range'_1.mp hx
      omega
    · intro p hp
      rw [hdof] at hp
      exact hrot _ (uploadDoc_rot_mem 1 rots p hp)
  | rotate_step st i out hre heq ih =>
    obtain ⟨hpdf, hmeta, hlen, hmir, hnd, hbd, hrot⟩ := ih
    cases hd : st.pdf with
    | none => exact absurd hd hpdf
    | some doc =>
      have hdof : docOf st = doc := by rw [docOf, hd]; rfl
      rw [hdof] at hlen hmir hrot
      simp only [rotate, hd] at heq
      split at heq
      case isTrue hcond =>
        injection heq with h2
        subst h2
        refine ⟨Option.some_ne_none _, hmeta, ?_, ?_, hnd, hbd, ?_⟩
        · show (ledgerOf st).length = (rotDoc doc i).length
          rw [length_rotDoc]; exact hlen
        · show ledgerOf st = (rotDoc doc i).map PDFPage.origIndex
          rw [rotDoc_map_orig]; exact hmir
        · show ∀ p ∈ rotDoc doc i, validRot p.rotation
          exact validRot_rotDoc doc i hrot
      case isFalse =>
        injection heq with h2
        subst h2
        exact ⟨hpdf, hmeta, by rwa [hdof], by rwa [hdof], hnd, hbd, by rwa [hdof]⟩
  | delete_step st i out hre heq ih =>
    obtain ⟨hpdf, hmeta, hlen, hmir, hnd, hbd, hrot⟩ := ih
    cases hd : st.pdf with
    | none => exact absurd hd hpdf
    | some doc =>
      cases hm : st.meta with
      | none => exact absurd hm hmeta
      | some m0 =>
        have hdof : docOf st = doc := by rw [docOf, hd]; rfl
        have hlof : ledgerOf st = m0.pages := by rw [ledgerOf, hm]; rfl
        rw [hdof] at hrot
        rw [hlof] at hmir hbd hnd
        rw [hdof] at hmir
        simp only [delete, hd, hm, load_meta] at heq
        split at heq
        case isTrue hcond =>
          injection heq with h2
          subst h2
          have hmir2 : m0.pages.eraseIdx i = (doc.eraseIdx i).map PDFPage.origIndex := by
            rw [map_eraseIdx_comm, ← hmir]
          refine ⟨Option.some_ne_none _, Option.some_ne_none _, ?_, ?_, ?_, ?_, ?_⟩
          · show (m0.pages.eraseIdx i).length = (doc.eraseIdx i).length
            rw [hmir2, List.length_map]
          · show m0.pages.eraseIdx i = (doc.eraseIdx i).map PDFPage.origIndex
            exact hmir2
          · show (m0.pages.eraseIdx i).Nodup
            exact List.Nodup.eraseIdx i hnd
          · show ∀ x ∈ m0.pages.eraseIdx i, 1 ≤ x ∧ x ≤ N
            intro x hx
            exact hbd x (List.mem_of_mem_eraseIdx hx)
          · show ∀ p ∈ doc.eraseIdx i, validRot p.rotation
            intro p hp
            exact hrot p (List.mem_of_mem_eraseIdx hp)
        case isFalse =>
          injection heq with h2
          subst h2
          exact ⟨hpdf, hmeta, hlen, by rwa [hlof, hdof], by rwa [hlof],
            by rwa [hlof], by rwa [hdof]⟩
  | move_step st f t out hre heq ih =>
    obtain ⟨hpdf, hmeta, hlen, hmir, hnd, hbd, hrot⟩ := ih
    cases hd : st.pdf with
    | none => exact absurd hd hpdf
    | some doc =>
      cases hm : st.meta with
      | none => exact absurd hm hmeta
      | some m0 =>
        have hdof : docOf st = doc := by rw [docOf, hd]; rfl
        have hlof : ledgerOf st = m0.pages := by rw [ledgerOf, hm]; rfl
        rw [hdof] at hrot
        rw [hlof] at hmir hbd hnd
        rw [hdof] at hmir
        have hplen : m0.pages.length = doc.length := by
          rw [hmir, List.length_map]
        simp only [moveCore, hd, hm, load_meta] at heq
        split at heq
        case isTrue hcond =>
          obtain ⟨hf, ht0, htn, hne⟩ := hcond
          have htlt : t.toNat < doc.length := by omega
          have hfp : f < m0.pages.length := by omega
          have htp : t.toNat < m0.pages.length := by omega
          injection heq with h2
          subst h2
          have hsel : docSelect doc (popInsert (List.range doc.length) f t.toNat) =
              popInsert doc f t.toNat := docSelect_popInsert_range doc f t.toNat
          have hmir2 : popInsert m0.pages f t.toNat =
              (popInsert doc f t.toNat).map PDFPage.origIndex := by
            rw [map_popInsert, ← hmir]
          refine ⟨Option.some_ne_none _, Option.some_ne_none _, ?_, ?_, ?_, ?_, ?_⟩
          · show (popInsert m0.pages f t.toNat).length =
              (docSelect doc (popInsert (List.range doc.length) f t.toNat)).length
            rw [hsel, hmir2, List.length_map]
          · show popInsert m0.pages f t.toNat =
              (docSelect doc (popInsert (List.range doc.length) f t.toNat)).map
                PDFPage.origIndex
            rw [hsel]; exact hmir2
          · show (popInsert m0.pages f t.toNat).Nodup
            exact (popInsert_perm m0.pages f t.toNat hfp htp).nodup_iff.mpr hnd
          · show ∀ x ∈ popInsert m0.pages f t.toNat, 1 ≤ x ∧ x ≤ N
            intro x hx
            exact hbd x ((popInsert_perm m0.pages f t.toNat hfp htp).mem_iff.mp hx)
          · show ∀ p ∈ docSelect doc (popInsert (List.range doc.length) f t.toNat),
              validRot p.rotation
            intro p hp
            rw [hsel] at hp
            exact hrot p ((popInsert_perm doc f t.toNat hf htlt).mem_iff.mp hp)
        case isFalse =>
          injection heq with h2
          subst h2
          exact ⟨hpdf, hmeta, hlen, by rwa [hlof, hdof], by rwa [hlof],
            by rwa [hlof], by rwa [hdof]⟩

/-- Witness for C1: the invariant, instantiated at the concrete reachable
state obtained by uploading a three-page document whose pages carry
rotations 0, 0, 90 and then deleting page 1. -/
theorem claim_C1_witness :
    (⟨some [⟨1, 0⟩, ⟨3, 90⟩], none, some ⟨"doc", [1, 3]⟩⟩ : Store).pdf ≠ none ∧
    (⟨some [⟨1, 0⟩, ⟨3, 90⟩], none, some ⟨"doc", [1, 3]⟩⟩ : Store).meta ≠ none ∧
    (ledgerOf ⟨some [⟨1, 0⟩, ⟨3, 90⟩], none, some ⟨"doc", [1, 3]⟩⟩).length =
      (docOf ⟨some [⟨1, 0⟩, ⟨3, 90⟩], none, some ⟨"doc", [1, 3]⟩⟩).length ∧
    ledgerOf ⟨some [⟨1, 0⟩, ⟨3, 90⟩], none, some ⟨"doc", [1, 3]⟩⟩ =
      (docOf ⟨some [⟨1, 0⟩, ⟨3, 90⟩], none, some ⟨"doc", [1, 3]⟩⟩).map
        PDFPage.origIndex ∧
    (ledgerOf ⟨some [⟨1, 0⟩, ⟨3, 90⟩], none, some ⟨"doc", [1, 3]⟩⟩).Nodup ∧
    (∀ x ∈ ledgerOf ⟨some [⟨1, 0⟩, ⟨3, 90⟩], none, some ⟨"doc", [1, 3]⟩⟩,
      1 ≤ x ∧ x ≤ 3) ∧
    (∀ p ∈ docOf ⟨some [⟨1, 0⟩, ⟨3, 90⟩], none, some ⟨"doc", [1, 3]⟩⟩,
      validRot p.rotation) :=
  claim_C1 3 _
    (Reach.delete_step (uploadStore "doc" [0, 0, 90]) 1
      ⟨⟨some [⟨1, 0⟩, ⟨3, 90⟩], none, some ⟨"doc", [1, 3]⟩⟩, fullRewriteSaves, .redirect⟩
      (Reach.upload "doc" [0, 0, 90] rfl (by decide)) rfl)

/-- C2: on a session whose ledger is in sync, with more than one page and a
valid index `i`, `delete i` succeeds with a redirect, replaces the document
by `doc.eraseIdx i` and the ledger by `m.pages.eraseIdx i`; the page count
strictly decreases by one, ledger length still equals page count, and the
new ledger keeps every entry before `i` in place while shifting the entries
after `i` down by one (so exactly the entry at position `i` is removed). -/
theorem claim_C2 (st : Store) (doc : List PDFPage) (m : SessionMeta) (i : Nat)
    (hpdf : st.pdf = some doc) (hmeta : st.meta = some m)
    (hsync : m.pages.length = doc.length)
    (hi : i < doc.length) (hn : 1 < doc.length) :
    delete st i = .ok ⟨⟨some (doc.eraseIdx i), none,
        some { m with pages := m.pages.eraseIdx i }⟩, fullRewriteSaves, .redirect⟩ ∧
    (doc.eraseIdx i).length + 1 = doc.length ∧
    (m.pages.eraseIdx i).length = (doc.eraseIdx i).length ∧
    (∀ j, j < i → (m.pages.eraseIdx i)[j]? = m.pages[j]?) ∧
    (∀ j, i ≤ j → (m.pages.eraseIdx i)[j]? = m.pages[j + 1]?) := by
  refine ⟨?_, ?_, ?_, ?_, ?_⟩
  · simp only [delete, hpdf, hmeta, load_meta]
    rw [if_pos ⟨hi, hn⟩]
  · rw [List.length_eraseIdx_of_lt hi]; omega
  · rw [List.length_eraseIdx_of_lt hi, List.length_eraseIdx_of_lt (by omega)]
    omega
  · intro j hj
    exact List.getElem?_eraseIdx_of_lt m.pages i j hj
  · intro j hj
    exact List.getElem?_eraseIdx_of_ge m.pages i j hj

/-- Witness for C2: deleting page 1 of the three-page session `st3`. -/
theorem claim_C2_witness :
    (1 : Nat) < doc3.length ∧
    (delete st3 1 = .ok ⟨⟨some (doc3.eraseIdx 1), none,
        some { meta3 with pages := meta3.pages.eraseIdx 1 }⟩,
        fullRewriteSaves, .redirect⟩ ∧
     (doc3.eraseIdx 1).length + 1 = doc3.length ∧
     (meta3.pages.eraseIdx 1).length = (doc3.eraseIdx 1).length ∧
     (∀ j, j < 1 → (meta3.pages.eraseIdx 1)[j]? = meta3.pages[j]?) ∧
     (∀ j, 1 ≤ j → (meta3.pages.eraseIdx 1)[j]? = meta3.pages[j + 1]?)) :=
  ⟨by decide, claim_C2 st3 doc3 meta3 1 rfl rfl rfl (by decide) (by decide)⟩

/-- C3: on a session whose ledger is in sync, `move` with valid distinct
indices applies the pop-then-insert permutation identically to the document
(`doc.select` over the permuted index list equals the pop-then-insert of the
document) and to the ledger, the new ledger is a permutation of the old one
(the multiset of original indices is preserved), and applying the move with
the two indices swapped restores the original document and ledger. -/
theorem claim_C3 (st : Store) (doc : List PDFPage) (m : SessionMeta) (f t : Nat)
    (hpdf : st.pdf = some doc) (hmeta : st.meta = some m)
    (hsync : m.pages.length = doc.length)
    (hf : f < doc.length) (ht : t < doc.length) (hne : f ≠ t) :
    moveCore st f (t : Int) = .ok ⟨⟨some (popInsert doc f t), none,
        some { m with pages := popInsert m.pages f t }⟩, fullRewriteSaves, .redirect⟩ ∧
    List.Perm (popInsert m.pages f t) m.pages ∧
    moveCore (⟨some (popInsert doc f t), none,
        some { m with pages := popInsert m.pages f t }⟩ : Store) t (f : Int) =
      .ok ⟨⟨some doc, none, some m⟩, fullRewriteSaves, .redirect⟩ := by
  have hfp : f < m.pages.length := by omega
  have htp : t < m.pages.length := by omega
  have hc : f < doc.length ∧ 0 ≤ (t : Int) ∧ (t : Int) < (doc.length : Int) ∧
      (f : Int) ≠ (t : Int) := ⟨hf, by omega, by exact_mod_cast ht, by exact_mod_cast hne⟩
  have hlen2 : (popInsert doc f t).length = doc.length := length_popInsert doc f t hf ht
  refine ⟨?_, popInsert_perm m.pages f t hfp htp, ?_⟩
  · simp only [moveCore, hpdf, hmeta, load_meta]
    rw [if_pos hc]
    simp only [Int.toNat_natCast, docSelect_popInsert_range]
  · have hc2 : t < (popInsert doc f t).length ∧ 0 ≤ (f : Int) ∧
        (f : Int) < ((popInsert doc f t).length : Int) ∧ (t : Int) ≠ (f : Int) := by
      rw [hlen2]
      exact ⟨ht, by omega, by exact_mod_cast hf, by exact_mod_cast (Ne.symm hne)⟩
    simp only [moveCore, load_meta]
    rw [if_pos hc2]
    simp only [Int.toNat_natCast, docSelect_popInsert_range]
    rw [popInsert_popInsert doc f t hf ht, popInsert_popInsert m.pages f t hfp htp]

/-- Witness for C3: moving page 0 of the three-page session `st3` to
position 2 and back. -/
theorem claim_C3_witness :
    (0 : Nat) < doc3.length ∧ (0 : Nat) ≠ 2 ∧
    (moveCore st3 0 ((2 : Nat) : Int) = .ok ⟨⟨some (popInsert doc3 0 2), none,
        some { meta3 with pages := popInsert meta3.pages 0 2 }⟩,
        fullRewriteSaves, .redirect⟩ ∧
     List.Perm (popInsert meta3.pages 0 2) meta3.pages ∧
     moveCore (⟨some (popInsert doc3 0 2), none,
        some { meta3 with pages := popInsert meta3.pages 0 2 }⟩ : Store) 2
        ((0 : Nat) : Int) =
      .ok ⟨⟨some doc3, none, some meta3⟩, fullRewriteSaves, .redirect⟩) :=
  ⟨by decide, by decide,
   claim_C3 st3 doc3 meta3 0 2 rfl rfl rfl (by decide) (by decide) (by decide)⟩

/-- C4: on a session with a valid index `i`, `rotate i` succeeds with a
redirect and only replaces the document by `rotDoc doc i`, leaving the rest
of the store (in particular the metadata ledger) untouched; the rotated
document has the same length and the same original-index sequence, page `i`
has its rotation advanced to `(current + 90) % 360` while every other page
is unchanged; and four successive rotations of the same page restore the
document exactly, provided the current rotation is normalized
(`< 360`). -/
theorem claim_C4 (st : Store) (doc : List PDFPage) (i : Nat)
    (hpdf : st.pdf = some doc) (hi : i < doc.length) :
    rotate st i = .ok ⟨{ st with pdf := some (rotDoc doc i) },
        [.incrementalSave true], .redirect⟩ ∧
    (rotDoc doc i).length = doc.length ∧
    (rotDoc doc i).map PDFPage.origIndex = doc.map PDFPage.origIndex ∧
    (rotDoc doc i)[i]? =
      (doc[i]?).map (fun p => ⟨p.origIndex, (p.rotation + 90) % 360⟩) ∧
    (∀ j, j ≠ i → (rotDoc doc i)[j]? = doc[j]?) ∧
    (∀ p, doc[i]? = some p → p.rotation < 360 →
      rotDoc (rotDoc (rotDoc (rotDoc doc i) i) i) i = doc) := by
  have hp : doc[i]? = some doc[i] := List.getElem?_eq_getElem hi
  have hrd : rotDoc doc i =
      doc.set i ⟨doc[i].origIndex, (doc[i].rotation + 90) % 360⟩ :=
    rotDoc_set doc i doc[i] hp
  refine ⟨?_, length_rotDoc doc i, rotDoc_map_orig doc i, ?_, ?_, ?_⟩
  · simp only [rotate, hpdf]
    rw [if_pos hi]
  · rw [hrd, hp, List.getElem?_set_self (by simpa using hi)]
    rfl
  · intro j hj
    rw [hrd]
    exact List.getElem?_set_ne (Ne.symm hj)
  · intro p hp0 hlt
    exact rotDoc_four doc i p hp0 hlt

/-- Witness for C4: rotating page 0 of the three-page session `st3`. -/
theorem claim_C4_witness :
    (0 : Nat) < doc3.length ∧
    (rotate st3 0 = .ok ⟨{ st3 with pdf := some (rotDoc doc3 0) },
        [.incrementalSave true], .redirect⟩ ∧
     (rotDoc doc3 0).length = doc3.length ∧
     (rotDoc doc3 0).map PDFPage.origIndex = doc3.map PDFPage.origIndex ∧
     (rotDoc doc3 0)[0]? =
       (doc3[0]?).map (fun p => ⟨p.origIndex, (p.rotation + 90) % 360⟩) ∧
     (∀ j, j ≠ 0 → (rotDoc doc3 0)[j]? = doc3[j]?) ∧
     (∀ p, doc3[0]? = some p → p.rotation < 360 →
       rotDoc (rotDoc (rotDoc (rotDoc doc3 0) 0) 0) 0 = doc3)) :=
  ⟨by decide, claim_C4 st3 doc3 0 rfl (by decide)⟩

/-- C5: on an existing session, every precondition violation is a silent
no-op: an out-of-range rotate index, a delete with an out-of-range index or
on a document that does not have at least two pages, and a move whose
source index is out of range, whose target index is negative or out of
range, or whose indices coincide, all return the store unchanged
entry-for-entry, perform no save, and answer with the normal redirect
rather than any error. -/
theorem claim_C5 (st : Store) (doc : List PDFPage) (hpdf : st.pdf = some doc) :
    (∀ i, doc.length ≤ i → rotate st i = .ok ⟨st, [], .redirect⟩) ∧
    (∀ i, doc.length ≤ i ∨ doc.length ≤ 1 → delete st i = .ok ⟨st, [], .redirect⟩) ∧
    (∀ (f : Nat) (t : Int),
      doc.length ≤ f ∨ t < 0 ∨ (doc.length : Int) ≤ t ∨ (f : Int) = t →
      moveCore st f t = .ok ⟨st, [], .redirect⟩) := by
  refine ⟨?_, ?_, ?_⟩
  · intro i hi
    simp only [rotate, hpdf]
    rw [if_neg (by omega)]
  · intro i hi
    simp only [delete, hpdf, load_meta]
    rw [if_neg (by omega)]
  · intro f t hcond
    simp only [moveCore, hpdf, load_meta]
    rw [if_neg (by omega)]

/-- Witness for C5: an out-of-range rotate, an out-of-range delete, and a
move with equal indices on the three-page session `st3`. -/
theorem claim_C5_witness :
    rotate st3 5 = .ok ⟨st3, [], .redirect⟩ ∧
    delete st3 5 = .ok ⟨st3, [], .redirect⟩ ∧
    moveCore st3 1 1 = .ok ⟨st3, [], .redirect⟩ :=
  ⟨(claim_C5 st3 doc3 rfl).1 5 (by decide),
   (claim_C5 st3 doc3 rfl).2.1 5 (Or.inl (by decide)),
   (claim_C5 st3 doc3 rfl).2.2 1 1 (Or.inr (Or.inr (Or.inr rfl)))⟩

/-- Counterexample to C6: deleting page 0 of the session `st3` passes
through the externally visible intermediate state (snapshot index 2, the
moment after `os.replace` and before `_save_meta`) in which the binary
content is already the new two-page document while the metadata artifact
still holds the prior ledger `[1, 2, 3]`; the final state differs from it
exactly in the metadata.  So the pair of artifacts is not replaced
atomically: the mixed state is observable, and it is what remains if the
metadata write fails. -/
theorem claim_C6_counterexample :
    (deleteSnapshots st3 0)[2]? =
      some ⟨some [⟨2, 0⟩, ⟨3, 0⟩], none, some meta3⟩ ∧
    (deleteSnapshots st3 0)[3]? =
      some ⟨some [⟨2, 0⟩, ⟨3, 0⟩], none, some ⟨"f", [2, 3]⟩⟩ ∧
    (some [⟨2, 0⟩, ⟨3, 0⟩] : Option (List PDFPage)) ≠ st3.pdf ∧
    (some meta3 : Option SessionMeta) = st3.meta ∧
    (some (⟨"f", [2, 3]⟩ : SessionMeta) : Option SessionMeta) ≠ some meta3 := by
  decide

/-- C6 as amended: for a valid `delete` or `move`, only the content
artifact is replaced atomically (written to `.tmp`, then a single rename);
the metadata is written in a separate subsequent step.  The sequence of
externally visible states is exactly: initial; `.tmp` written; content
renamed over the PDF while the metadata still holds the prior ledger; both
artifacts new.  The third state has the new content paired with the old
metadata, and is what remains if the metadata write fails. -/
theorem claim_C6 (st : Store) (doc : List PDFPage) (m : SessionMeta) (i f : Nat)
    (t : Int) (hpdf : st.pdf = some doc) (hmeta : st.meta = some m)
    (hi : i < doc.length) (hn : 1 < doc.length)
    (hf : f < doc.length) (ht0 : 0 ≤ t) (ht : t < (doc.length : Int))
    (hne : (f : Int) ≠ t) :
    deleteSnapshots st i =
      [st,
       { st with tmp := some (doc.eraseIdx i) },
       ⟨some (doc.eraseIdx i), none, some m⟩,
       ⟨some (doc.eraseIdx i), none,
        some { m with pages := m.pages.eraseIdx i }⟩] ∧
    moveSnapshots st f t =
      [st,
       { st with
          tmp := some (docSelect doc (popInsert (List.range doc.length) f t.toNat)) },
       ⟨some (docSelect doc (popInsert (List.range doc.length) f t.toNat)),
        none, some m⟩,
       ⟨some (docSelect doc (popInsert (List.range doc.length) f t.toNat)),
        none, some { m with pages := popInsert m.pages f t.toNat }⟩] := by
  constructor
  · simp only [deleteSnapshots, hpdf, hmeta, load_meta]
    rw [if_pos ⟨hi, hn⟩]
  · simp only [moveSnapshots, hpdf, hmeta, load_meta]
    rw [if_pos ⟨hf, ht0, ht, hne⟩]

/-- Witness for the amended C6 at the session `st3`, deleting page 0 and
moving page 0 to position 2. -/
theorem claim_C6_witness :
    deleteSnapshots st3 0 =
      [st3,
       { st3 with tmp := some (doc3.eraseIdx 0) },
       ⟨some (doc3.eraseIdx 0), none, some meta3⟩,
       ⟨some (doc3.eraseIdx 0), none,
        some { meta3 with pages := meta3.pages.eraseIdx 0 }⟩] ∧
    moveSnapshots st3 0 2 =
      [st3,
       { st3 with
          tmp := some (docSelect doc3 (popInsert (List.range doc3.length) 0 (2 : Int).toNat)) },
       ⟨some (docSelect doc3 (popInsert (List.range doc3.length) 0 (2 : Int).toNat)),
        none, some meta3⟩,
       ⟨some (docSelect doc3 (popInsert (List.range doc3.length) 0 (2 : Int).toNat)),
        none, some { meta3 with pages := popInsert meta3.pages 0 (2 : Int).toNat }⟩] :=
  claim_C6 st3 doc3 meta3 0 0 2 rfl rfl (by decide) (by decide) (by decide)
    (by decide) (by decide) (by decide)

/-- Counterexample to C7: for a session identifier with no stored
artifacts, only the listing route answers with the 404 "not found" page;
the three edit operations call `fitz.open` on the missing path without
checking existence, so the uncaught exception surfaces as a 500 server
error, not as the NotFound result the claim asserts. -/
theorem claim_C7_counterexample :
    edit stEmpty = .notFound ∧
    runRotate stEmpty 0 = .serverError ∧
    runDelete stEmpty 0 = .serverError ∧
    runMove stEmpty 0 none = .serverError ∧
    Response.serverError ≠ Response.notFound := by
  decide

/-- C7 as amended: loading a missing session via the listing route yields
the explicit NotFound response, while each of the three edit operations
propagates the file-open failure as an uncaught exception, which the caller
observes as a server error rather than NotFound. -/
theorem claim_C7 (st : Store) (h : st.pdf = none) :
    edit st = .notFound ∧
    (∀ i, rotate st i = .error .fileNotFound) ∧
    (∀ i, delete st i = .error .fileNotFound) ∧
    (∀ (f : Nat) (t : Int), moveCore st f t = .error .fileNotFound) ∧
    (∀ i, runRotate st i = .serverError) ∧
    (∀ i, runDelete st i = .serverError) ∧
    (∀ (f : Nat) (p : Option String), runMove st f p = .serverError) := by
  refine ⟨?_, ?_, ?_, ?_, ?_, ?_, ?_⟩
  · simp only [edit, h]
  · intro i; simp only [rotate, h]
  · intro i; simp only [delete, h]
  · intro f t; simp only [moveCore, h]
  · intro i; simp only [runRotate, rotate, h]
  · intro i; simp only [runDelete, delete, h]
  · intro f p
    cases p with
    | none => simp only [runMove, move, moveCore, h]
    | some s =>
      cases hps : pyInt s with
      | ok t => simp only [runMove, move, hps, moveCore, h]
      | error e => simp only [runMove, move, hps]

/-- Witness for the amended C7 at the empty store. -/
theorem claim_C7_witness :
    edit stEmpty = .notFound ∧
    rotate stEmpty 2 = .error .fileNotFound ∧
    delete stEmpty 2 = .error .fileNotFound ∧
    moveCore stEmpty 0 1 = .error .fileNotFound ∧
    runRotate stEmpty 2 = .serverError ∧
    runMove stEmpty 0 (some "1") = .serverError :=
  ⟨(claim_C7 stEmpty rfl).1,
   (claim_C7 stEmpty rfl).2.1 2,
   (claim_C7 stEmpty rfl).2.2.1 2,
   (claim_C7 stEmpty rfl).2.2.2.1 0 1,
   (claim_C7 stEmpty rfl).2.2.2.2.1 2,
   (claim_C7 stEmpty rfl).2.2.2.2.2.2 0 (some "1")⟩

/-- C8: the persistence mode is a function of the operation kind alone.
For every session store and every in-range request, `rotate` performs
exactly one incremental save that keeps the existing encryption envelope
(`incremental=True, encryption=PDF_ENCRYPT_KEEP`), while `delete` and
`move` perform exactly the full-rewrite sequence: write to the temporary
artifact with `deflate=True`, atomically rename it over the stored binary,
then write the metadata.  The save lists are constants, independent of the
document's size or content. -/
theorem claim_C8 (st : Store) (doc : List PDFPage) (hpdf : st.pdf = some doc) :
    (∀ i, i < doc.length →
      (rotate st i).map RouteOut.saves = .ok [.incrementalSave true]) ∧
    (∀ i, i < doc.length → 1 < doc.length →
      (delete st i).map RouteOut.saves = .ok fullRewriteSaves) ∧
    (∀ (f : Nat) (t : Int), f < doc.length → 0 ≤ t → t < (doc.length : Int) →
      (f : Int) ≠ t →
      (moveCore st f t).map RouteOut.saves = .ok fullRewriteSaves) := by
  refine ⟨?_, ?_, ?_⟩
  · intro i hi
    simp only [rotate, hpdf]
    rw [if_pos hi]
    rfl
  · intro i hi hn
    simp only [delete, hpdf, load_meta]
    rw [if_pos ⟨hi, hn⟩]
    rfl
  · intro f t hf h0 ht hne
    simp only [moveCore, hpdf, load_meta]
    rw [if_pos ⟨hf, h0, ht, hne⟩]
    rfl

/-- Witness for C8 at the session `st3`. -/
theorem claim_C8_witness :
    (rotate st3 0).map RouteOut.saves = .ok [.incrementalSave true] ∧
    (delete st3 0).map RouteOut.saves = .ok fullRewriteSaves ∧
    (moveCore st3 0 2).map RouteOut.saves = .ok fullRewriteSaves :=
  ⟨(claim_C8 st3 doc3 rfl).1 0 (by decide),
   (claim_C8 st3 doc3 rfl).2.1 0 (by decide) (by decide),
   (claim_C8 st3 doc3 rfl).2.2 0 2 (by decide) (by decide) (by decide) (by decide)⟩

/-- Counterexample to C9: when the `to` form parameter is present but
malformed, `int()` does not fall back to the default: it raises
`ValueError` (an uncaught exception), so the request is not the claimed
silent no-op redirect — though the absent-parameter case does default to
the source index and no-op. -/
theorem claim_C9_counterexample :
    pyInt "abc" = .error .valueError ∧
    move st3 0 (some "abc") = .error .valueError ∧
    move st3 0 (some "abc") ≠ .ok ⟨st3, [], .redirect⟩ ∧
    move st3 0 none = .ok ⟨st3, [], .redirect⟩ := by
  decide

/-- C9 as amended: when the `to` form parameter is absent,
`request.form.get("to", from_idx)` defaults the target to the source index,
the `from != to` precondition fails, and the move is a silent no-op
(unchanged store, no saves, normal redirect).  When the parameter is
present but malformed, `int()` raises `ValueError` before the document is
opened, and that exception propagates; no artifact is modified in either
case. -/
theorem claim_C9 (st : Store) (doc : List PDFPage) (f : Nat)
    (hpdf : st.pdf = some doc) :
    move st f none = moveCore st f (f : Int) ∧
    move st f none = .ok ⟨st, [], .redirect⟩ ∧
    (∀ (s : String) (e : PyErr), pyInt s = .error e → move st f (some s) = .error e) := by
  refine ⟨rfl, ?_, ?_⟩
  · simp only [move, moveCore, hpdf]
    rw [if_neg (by omega)]
  · intro s e he
    simp only [move, he]

/-- Witness for the amended C9 at the session `st3`. -/
theorem claim_C9_witness :
    move st3 1 none = moveCore st3 1 (1 : Int) ∧
    move st3 1 none = .ok ⟨st3, [], .redirect⟩ ∧
    move st3 1 (some "12x") = .error .valueError :=
  ⟨(claim_C9 st3 doc3 1 rfl).1,
   (claim_C9 st3 doc3 1 rfl).2.1,
   (claim_C9 st3 doc3 1 rfl).2.2 "12x" .valueError (by decide)⟩

/-- C10: when the PDF artifact exists but the metadata artifact is missing,
`_load_meta` does not fail: it synthesizes the default of filename
`"unknown.pdf"` and ledger `[1..n]` for the current page count `n`; the
listing route renders normally, and `delete` and `move` proceed against
exactly that synthesized ledger. -/
theorem claim_C10 (st : Store) (doc : List PDFPage) (n : Nat)
    (hpdf : st.pdf = some doc) (hmeta : st.meta = none) :
    load_meta st.meta n = ⟨"unknown.pdf", List.range' 1 n⟩ ∧
    edit st = .ok ∧
    (∀ i, i < doc.length → 1 < doc.length →
      delete st i = .ok ⟨⟨some (doc.eraseIdx i), none,
        some ⟨"unknown.pdf", (List.range' 1 doc.length).eraseIdx i⟩⟩,
        fullRewriteSaves, .redirect⟩) ∧
    (∀ (f : Nat) (t : Int), f < doc.length → 0 ≤ t → t < (doc.length : Int) →
      (f : Int) ≠ t →
      moveCore st f t =
        .ok ⟨⟨some (docSelect doc (popInsert (List.range doc.length) f t.toNat)),
          none,
          some ⟨"unknown.pdf", popInsert (List.range' 1 doc.length) f t.toNat⟩⟩,
          fullRewriteSaves, .redirect⟩) := by
  refine ⟨by rw [hmeta]; rfl, by simp only [edit, hpdf], ?_, ?_⟩
  · intro i hi hn
    simp only [delete, hpdf, hmeta, load_meta]
    rw [if_pos ⟨hi, hn⟩]
  · intro f t hf h0 ht hne
    simp only [moveCore, hpdf, hmeta, load_meta]
    rw [if_pos ⟨hf, h0, ht, hne⟩]

/-- Witness for C10 at a store holding `doc3` with no metadata artifact. -/
theorem claim_C10_witness :
    load_meta stNoMeta.meta 3 = ⟨"unknown.pdf", List.range' 1 3⟩ ∧
    edit stNoMeta = .ok ∧
    delete stNoMeta 0 = .ok ⟨⟨some (doc3.eraseIdx 0), none,
      some ⟨"unknown.pdf", (List.range' 1 doc3.length).eraseIdx 0⟩⟩,
      fullRewriteSaves, .redirect⟩ ∧
    moveCore stNoMeta 0 2 =
      .ok ⟨⟨some (docSelect doc3 (popInsert (List.range doc3.length) 0 (2 : Int).toNat)),
        none,
        some ⟨"unknown.pdf", popInsert (List.range' 1 doc3.length) 0 (2 : Int).toNat⟩⟩,
        fullRewriteSaves, .redirect⟩ :=
  ⟨(claim_C10 stNoMeta doc3 3 rfl rfl).1,
   (claim_C10 stNoMeta doc3 3 rfl rfl).2.1,
   (claim_C10 stNoMeta doc3 3 rfl rfl).2.2.1 0 (by decide) (by decide),
   (claim_C10 stNoMeta doc3 3 rfl rfl).2.2.2 0 2 (by decide) (by decide) (by decide)
     (by decide)⟩

end PdfMinEdit
